import Mathlib

/-!
Shallow embedding of `sub_adjust.py`, a subtitle timing/numbering adjuster
for SRT and SMI files, together with proofs about its line-rewriting core.

Lines are modelled as lists of characters.  Whitespace is modelled by
`Char.isWhitespace` (space, tab, CR, LF) and the regex digit class `\d`
by ASCII decimal digits, which is faithful for ASCII input.  Python's
`str.isdigit` is wider than the set of strings `int` accepts; the model
keeps one representative of that gap (the superscript two, U+00B2).
An uncaught Python exception is modelled by an `Option` result.
-/

namespace SubAdjust

/-- A line of a subtitle file: a sequence of characters. -/
abbrev Line := List Char

/-- `str.strip()` / the whitespace stripping done by `int()`:
remove leading and trailing whitespace characters. -/
def strip (l : Line) : Line :=
  ((l.dropWhile Char.isWhitespace).reverse.dropWhile Char.isWhitespace).reverse

/-- The numeric value of an ASCII digit character. -/
def digitVal (c : Char) : Nat := c.toNat - 48

/-- Accumulating decimal parse, the value denoted by a digit string
(how `int()` evaluates a string of decimal digits). -/
def parseNatFrom (a : Nat) (l : Line) : Nat :=
  l.foldl (fun acc c => 10 * acc + digitVal c) a

/-- The value of a string of decimal digits. -/
def parseNat (l : Line) : Nat := parseNatFrom 0 l

/-- Decimal rendering of a positive number, most significant digit first;
`fuel` bounds the recursion depth. -/
def natRenderAux : Nat → Nat → Line
  | 0, _ => []
  | fuel + 1, n =>
    if n = 0 then [] else natRenderAux fuel (n / 10) ++ [Char.ofNat (48 + n % 10)]

/-- `str(n)` for a non-negative integer `n`. -/
def natRender (n : Nat) : Line := if n = 0 then ['0'] else natRenderAux n n

/-- `str(i)` for an integer `i`: optional minus sign, then decimal digits. -/
def intRender : Int → Line
  | Int.ofNat n => natRender n
  | Int.negSucc m => '-' :: natRender (m + 1)

/-- Python format spec `{:0>w}`: left-pad the rendered text with `'0'`
to width `w` (no truncation). -/
def padZero (w : Nat) (l : Line) : Line := List.replicate (w - l.length) '0' ++ l

/-- `SRT_TEMPLATE = '{:0>2}:{:0>2}:{:0>2},{:0>3}'` applied to four integers. -/
def srtTemplate (h m s ms : Int) : Line :=
  padZero 2 (intRender h) ++ ':' :: (padZero 2 (intRender m) ++
    ':' :: (padZero 2 (intRender s) ++ ',' :: padZero 3 (intRender ms)))

/-- The field decomposition inside `add_time`: flatten the timestamp plus
offset to total milliseconds, then successive `divmod` (Python floor
division, `Int.fdiv`/`Int.fmod`) by 3600000, 60000, 1000. -/
def addTimeTuple (hours minutes seconds millis milli_offset : Int) :
    Int × Int × Int × Int :=
  let total := millis + (hours * 3600000 + minutes * 60000 + seconds * 1000
    + milli_offset)
  let hours' := total.fdiv 3600000
  let r1 := total.fmod 3600000
  let minutes' := r1.fdiv 60000
  let r2 := r1.fmod 60000
  let seconds' := r2.fdiv 1000
  let millis' := r2.fmod 1000
  (hours', minutes', seconds', millis')

/-- `add_time(hours, minutes, seconds, millis, milli_offset)`: add the offset
to the timestamp and render the normalized fields with `SRT_TEMPLATE`. -/
def add_time (hours minutes seconds millis milli_offset : Int) : Line :=
  match addTimeTuple hours minutes seconds millis milli_offset with
  | (h, m, s, ms) => srtTemplate h m s ms

/-- Consume exactly `k` ASCII digits from the front of a line, extending the
accumulator `a` with their value (the regex fragment `\d{k}` plus `int()`). -/
def parseFixed : Nat → Nat → Line → Option (Nat × Line)
  | 0, a, rest => some (a, rest)
  | _ + 1, _, [] => none
  | k + 1, a, c :: rest =>
    if c.isDigit then parseFixed k (10 * a + digitVal c) rest else none

/-- Consume one expected literal character from the front of a line. -/
def expectChar (c : Char) : Line → Option Line
  | [] => none
  | x :: rest => if x = c then some rest else none

/-- Consume an expected literal character sequence from the front of a line. -/
def expectLit : Line → Line → Option Line
  | [], rest => some rest
  | _ :: _, [] => none
  | p :: ps, x :: rest => if x = p then expectLit ps rest else none

/-- One `SRT_PATTERN` timestamp `(\d{2}):(\d{2}):(\d{2}),(\d{3})` anchored at
the front of the line: the four captured values and the remaining text. -/
def srtStampParse (l : Line) : Option ((Nat × Nat × Nat × Nat) × Line) := do
  let (h, l1) ← parseFixed 2 0 l
  let l2 ← expectChar ':' l1
  let (m, l3) ← parseFixed 2 0 l2
  let l4 ← expectChar ':' l3
  let (s, l5) ← parseFixed 2 0 l4
  let l6 ← expectChar ',' l5
  let (ms, l7) ← parseFixed 3 0 l6
  return ((h, m, s, ms), l7)

/-- `re.match` of `'{pat} --> {pat}'.format(pat=SRT_PATTERN)`: two timestamps
separated by a literal arrow, anchored at line start, trailing text ignored. -/
def srtTimeMatch (l : Line) :
    Option ((Nat × Nat × Nat × Nat) × (Nat × Nat × Nat × Nat)) := do
  let (t1, l1) ← srtStampParse l
  let l2 ← expectLit (" --> ".data) l1
  let (t2, _) ← srtStampParse l2
  return (t1, t2)

/-- Model of Python `str.isdigit` on one character: the ASCII digits plus,
as a representative of the wider Unicode digit class that `isdigit` accepts
but `int()` rejects, the superscript two U+00B2. -/
def pyIsDigit (c : Char) : Bool := c.isDigit || c = '²'

/-- `line.strip().isdigit()`: the stripped line is non-empty and consists of
digit-classified characters only. -/
def isSectionLine (l : Line) : Bool :=
  !(strip l).isEmpty && (strip l).all pyIsDigit

/-- `int(line)` restricted to the strings reaching it in `process_srt`:
succeeds exactly when the stripped line is a non-empty string of ASCII
decimal digits, otherwise raises `ValueError` (modelled as `none`). -/
def pyInt (l : Line) : Option Int :=
  let t := strip l
  if !t.isEmpty && t.all Char.isDigit then some ((parseNat t : Nat) : Int)
  else none

/-- The carriage-return + newline terminator re-imposed on rewritten lines. -/
def crlf : Line := ['\r', '\n']

/-- The section-number repair rule of `process_srt` (lines 90-92): the
number emitted for offset candidate `candidate` given the previous state.
Python's `if section_previous and ...` is a truthiness test, so both the
unset state and a previous value of `0` leave the candidate unrepaired. -/
def sectionEmit (prev : Option Int) (candidate : Int) : Int :=
  match prev with
  | some p => if p != 0 && candidate != p + 1 then p + 1 else candidate
  | none => candidate

/-- One iteration of the `process_srt` loop body on one line, threading the
`section_previous` state; `none` models an uncaught `ValueError`. -/
def srtStep (section_offset time_offset : Int) (prev : Option Int)
    (line : Line) : Option (Option Int × Line) :=
  match srtTimeMatch line with
  | some ((h1, m1, s1, ms1), (h2, m2, s2, ms2)) =>
    some (prev, add_time h1 m1 s1 ms1 time_offset ++ (" --> ".data) ++
      add_time h2 m2 s2 ms2 time_offset ++ crlf)
  | none =>
    if isSectionLine line then
      match pyInt line with
      | none => none
      | some n =>
        let emitted := sectionEmit prev (n + section_offset)
        some (some emitted, intRender emitted ++ crlf)
    else some (prev, line)

/-- The `process_srt` loop from an arbitrary `section_previous` state. -/
def processSrtFrom (section_offset time_offset : Int) :
    Option Int → List Line → Option (List Line)
  | _, [] => some []
  | prev, l :: ls =>
    match srtStep section_offset time_offset prev l with
    | none => none
    | some (p, l') =>
      match processSrtFrom section_offset time_offset p ls with
      | none => none
      | some out => some (l' :: out)

/-- `process_srt(contents, section_offset, time_offset)`; `none` models an
uncaught exception. -/
def process_srt (contents : List Line) (section_offset time_offset : Int) :
    Option (List Line) :=
  processSrtFrom section_offset time_offset none contents

/-- `re.match` of `SMI_PATTERN = '<SYNC Start=(\d+)>'`: the literal marker,
then a maximal non-empty digit run, then `>`; trailing text ignored.
Returns the captured number. -/
def smiMatch (l : Line) : Option Nat :=
  match expectLit ("<SYNC Start=".data) l with
  | none => none
  | some rest =>
    let ds := rest.takeWhile Char.isDigit
    if ds.isEmpty then none
    else
      match rest.dropWhile Char.isDigit with
      | '>' :: _ => some (parseNat ds)
      | _ => none

/-- `SMI_TEMPLATE = '<SYNC Start={}>\r\n'` applied to an integer. -/
def smiTemplate (n : Int) : Line :=
  ("<SYNC Start=".data) ++ intRender n ++ '>' :: crlf

/-- One iteration of the `process_smi` loop body on one line. -/
def smiLine (time_offset : Int) (line : Line) : Line :=
  match smiMatch line with
  | some n => smiTemplate ((n : Int) + time_offset)
  | none => line

/-- `process_smi(contents, time_offset)`. -/
def process_smi (contents : List Line) (time_offset : Int) : List Line :=
  contents.map (smiLine time_offset)

/-- The section numbers carried by the section-number lines of a line
sequence, in order (garbage lines that would crash `int()` are skipped;
they make `process_srt` return `none` anyway). -/
def sectionNums (contents : List Line) : List Int :=
  contents.filterMap (fun l => if isSectionLine l then pyInt l else none)

/-- Field decomposition of a flat millisecond total by successive floor
`divmod`; `addTimeTuple` is exactly this applied to the flattened input. -/
def decomposeTotal (total : Int) : Int × Int × Int × Int :=
  (total.fdiv 3600000, (total.fmod 3600000).fdiv 60000,
    ((total.fmod 3600000).fmod 60000).fdiv 1000,
    ((total.fmod 3600000).fmod 60000).fmod 1000)

/-- The timestamp shift of the spec, as a map on timestamp 4-tuples. -/
def shiftTuple (t : Int × Int × Int × Int) (off : Int) : Int × Int × Int × Int :=
  addTimeTuple t.1 t.2.1 t.2.2.1 t.2.2.2 off

/-- A canonical SRT time-range line: the exact rendering of two in-range
timestamps joined by the literal arrow, terminated by CR+LF. -/
def WfTimeLine (l : Line) : Prop :=
  ∃ h1 m1 s1 ms1 h2 m2 s2 ms2 : Nat,
    h1 ≤ 99 ∧ m1 < 60 ∧ s1 < 60 ∧ ms1 ≤ 999 ∧
    h2 ≤ 99 ∧ m2 < 60 ∧ s2 < 60 ∧ ms2 ≤ 999 ∧
    l = srtTemplate h1 m1 s1 ms1 ++ (" --> ".data) ++ srtTemplate h2 m2 s2 ms2
      ++ crlf

/-- A well-formed SRT line: a canonical time-range line, a canonical
section-number line (decimal rendering of its number), or an unrecognized
line — each terminated by CR+LF. -/
def WfSrtLine (l : Line) : Prop :=
  WfTimeLine l ∨ (∃ n : Nat, l = natRender n ++ crlf) ∨
  (srtTimeMatch l = none ∧ isSectionLine l = false ∧ ∃ l', l = l' ++ crlf)

/-- Invariant between the `section_previous` state and the upcoming section
numbers: the state is unset, zero (which disables the repair rule), or one
less than the next section number. -/
def prevOk (prev : Option Int) (ns : List Int) : Prop :=
  match prev, ns with
  | none, _ => True
  | some _, [] => True
  | some p, n :: _ => p = 0 ∨ p + 1 = n

theorem digitVal_ofNat {d : Nat} (hd : d < 10) :
    digitVal (Char.ofNat (48 + d)) = d := by
  interval_cases d <;> decide

theorem isDigit_ofNat {d : Nat} (hd : d < 10) :
    (Char.ofNat (48 + d)).isDigit = true := by
  interval_cases d <;> decide

theorem natRenderAux_digits :
    ∀ fuel n, ∀ c ∈ natRenderAux fuel n, c.isDigit = true := by
  intro fuel
  induction fuel with
  | zero => intro n c hc; simp [natRenderAux] at hc
  | succ fuel ih =>
    intro n c hc
    rw [natRenderAux] at hc
    by_cases hn : n = 0
    · simp [hn] at hc
    · simp only [if_neg hn, List.mem_append, List.mem_singleton] at hc
      rcases hc with hc | hc
      · exact ih _ c hc
      · subst hc; exact isDigit_ofNat (Nat.mod_lt _ (by decide))

theorem natRender_digits (n : Nat) : ∀ c ∈ natRender n, c.isDigit = true := by
  intro c hc
  rw [natRender] at hc
  by_cases hn : n = 0
  · simp [hn] at hc; subst hc; decide
  · exact natRenderAux_digits n n c (by simpa [hn] using hc)

theorem natRender_ne_nil (n : Nat) : natRender n ≠ [] := by
  rw [natRender]
  by_cases hn : n = 0
  · simp [hn]
  · simp only [if_neg hn]
    cases n with
    | zero => exact absurd rfl hn
    | succ k =>
      rw [natRenderAux]
      simp [hn]

theorem parseNatFrom_append (a : Nat) (l1 l2 : Line) :
    parseNatFrom a (l1 ++ l2) = parseNatFrom (parseNatFrom a l1) l2 := by
  simp [parseNatFrom, List.foldl_append]

theorem natRenderAux_parse :
    ∀ fuel n a, n ≤ fuel →
      parseNatFrom a (natRenderAux fuel n) =
        a * 10 ^ (natRenderAux fuel n).length + n := by
  intro fuel
  induction fuel with
  | zero =>
    intro n a hn
    interval_cases n
    simp [natRenderAux, parseNatFrom]
  | succ fuel ih =>
    intro n a hn
    rw [natRenderAux]
    by_cases h0 : n = 0
    · simp [h0, parseNatFrom]
    · rw [if_neg h0, parseNatFrom_append, ih (n / 10) a (by omega)]
      simp only [parseNatFrom, List.foldl_cons, List.foldl_nil,
        List.length_append, List.length_singleton]
      rw [digitVal_ofNat (Nat.mod_lt _ (by decide))]
      ring_nf
      omega

theorem parseNat_natRender (n : Nat) : parseNat (natRender n) = n := by
  rw [natRender]
  by_cases h0 : n = 0
  · simp [h0, parseNat, parseNatFrom, digitVal]
  · rw [if_neg h0, parseNat, natRenderAux_parse n n 0 (le_refl n)]
    simp

theorem natRenderAux_length :
    ∀ fuel n k, n < 10 ^ k → (natRenderAux fuel n).length ≤ k := by
  intro fuel
  induction fuel with
  | zero => intro n k _; simp [natRenderAux]
  | succ fuel ih =>
    intro n k hk
    rw [natRenderAux]
    by_cases h0 : n = 0
    · simp [h0]
    · rw [if_neg h0]
      cases k with
      | zero =>
        exact absurd hk (by simp; omega)
      | succ k =>
        have : n / 10 < 10 ^ k := by
          rw [Nat.div_lt_iff_lt_mul (by decide)]
          calc n < 10 ^ (k + 1) := hk
          _ = 10 ^ k * 10 := by ring
        simpa using Nat.succ_le_succ (ih (n / 10) k this)

theorem natRender_length_le {n k : Nat} (hk : 0 < k) (hn : n < 10 ^ k) :
    (natRender n).length ≤ k := by
  rw [natRender]
  by_cases h0 : n = 0
  · simp [h0]; omega
  · rw [if_neg h0]; exact natRenderAux_length n n k hn

theorem parseFixed_exact :
    ∀ (l : Line) (a : Nat) (rest : Line), (∀ c ∈ l, c.isDigit = true) →
      parseFixed l.length a (l ++ rest) = some (parseNatFrom a l, rest) := by
  intro l
  induction l with
  | nil => intro a rest _; simp [parseFixed, parseNatFrom]
  | cons c t ih =>
    intro a rest hd
    have hc : c.isDigit = true := hd c (List.mem_cons_self c t)
    simp only [List.length_cons, List.cons_append, parseFixed, if_pos hc]
    show parseFixed t.length (10 * a + digitVal c) (t ++ rest) = _
    rw [ih (10 * a + digitVal c) rest (fun x hx => hd x (List.mem_cons_of_mem c hx))]
    simp [parseNatFrom]

theorem parseNatFrom_zeros (j : Nat) :
    parseNatFrom 0 (List.replicate j '0') = 0 := by
  induction j with
  | zero => simp [parseNatFrom]
  | succ j ih =>
    rw [List.replicate_succ]
    simpa [parseNatFrom, digitVal, List.foldl_cons] using ih

theorem parseNat_padZero (w : Nat) (l : Line) :
    parseNat (padZero w l) = parseNat l := by
  rw [padZero, parseNat, parseNat, parseNatFrom_append, parseNatFrom_zeros]

theorem padZero_length {w : Nat} {l : Line} (h : l.length ≤ w) :
    (padZero w l).length = w := by
  simp [padZero]
  omega

theorem padZero_digits {w : Nat} {l : Line} (h : ∀ c ∈ l, c.isDigit = true) :
    ∀ c ∈ padZero w l, c.isDigit = true := by
  intro c hc
  rw [padZero, List.mem_append] at hc
  rcases hc with hc | hc
  · rw [List.eq_of_mem_replicate hc]; decide
  · exact h c hc

theorem expectChar_cons (c : Char) (rest : Line) :
    expectChar c (c :: rest) = some rest := by
  simp [expectChar]

theorem expectLit_append : ∀ (p rest : Line), expectLit p (p ++ rest) = some rest := by
  intro p
  induction p with
  | nil => intro rest; simp [expectLit]
  | cons c t ih => intro rest; simpa [expectLit] using ih rest

theorem intRender_natCast (n : Nat) : intRender (n : Int) = natRender n := rfl

theorem intRender_nonneg {i : Int} (h : 0 ≤ i) :
    intRender i = natRender i.toNat := by
  cases i with
  | ofNat n => rfl
  | negSucc m => exact absurd h (by simp)

theorem parseNatFrom_eq (x : Line) (b : Nat) :
    parseNatFrom b x = b * 10 ^ x.length + parseNatFrom 0 x := by
  induction x generalizing b with
  | nil => simp [parseNatFrom]
  | cons c t iht =>
    simp only [parseNatFrom, List.foldl_cons] at iht ⊢
    rw [iht (10 * b + digitVal c), iht (10 * 0 + digitVal c)]
    simp [List.length_cons]
    ring

theorem padZero_parse {n w : Nat} (hn : n < 10 ^ w) (hw : 0 < w) (a : Nat)
    (rest : Line) :
    parseFixed w a (padZero w (natRender n) ++ rest) =
      some (a * 10 ^ w + n, rest) := by
  have hle : (natRender n).length ≤ w := natRender_length_le hw hn
  have hlen : (padZero w (natRender n)).length = w := padZero_length hle
  have h := parseFixed_exact (padZero w (natRender n)) a rest
    (padZero_digits (natRender_digits n))
  rw [hlen] at h
  rw [h]
  have h0 : parseNatFrom 0 (padZero w (natRender n)) = n := by
    rw [← parseNat, parseNat_padZero, parseNat_natRender]
  rw [parseNatFrom_eq, h0, hlen]

theorem pad2_parse {n : Nat} (hn : n ≤ 99) (a : Nat) (rest : Line) :
    parseFixed 2 a (padZero 2 (natRender n) ++ rest) =
      some (a * 100 + n, rest) :=
  padZero_parse (by omega) (by decide) a rest

theorem pad3_parse {n : Nat} (hn : n ≤ 999) (a : Nat) (rest : Line) :
    parseFixed 3 a (padZero 3 (natRender n) ++ rest) =
      some (a * 1000 + n, rest) :=
  padZero_parse (by omega) (by decide) a rest

theorem srtStampParse_template {h m s ms : Nat} (hh : h ≤ 99) (hm : m ≤ 99)
    (hs : s ≤ 99) (hms : ms ≤ 999) (rest : Line) :
    srtStampParse (srtTemplate (h : Int) (m : Int) (s : Int) (ms : Int) ++ rest)
      = some ((h, m, s, ms), rest) := by
  simp only [srtTemplate, intRender_natCast, List.append_assoc,
    List.cons_append, srtStampParse]
  rw [pad2_parse hh]
  simp only [Option.bind_eq_bind, Option.some_bind, expectChar_cons]
  rw [pad2_parse hm]
  simp only [Option.some_bind, expectChar_cons]
  rw [pad2_parse hs]
  simp only [Option.some_bind, expectChar_cons]
  rw [pad3_parse hms]
  simp

theorem srtTimeMatch_template {h1 m1 s1 ms1 h2 m2 s2 ms2 : Nat}
    (hh1 : h1 ≤ 99) (hm1 : m1 ≤ 99) (hs1 : s1 ≤ 99) (hms1 : ms1 ≤ 999)
    (hh2 : h2 ≤ 99) (hm2 : m2 ≤ 99) (hs2 : s2 ≤ 99) (hms2 : ms2 ≤ 999)
    (rest : Line) :
    srtTimeMatch (srtTemplate (h1 : Int) (m1 : Int) (s1 : Int) (ms1 : Int) ++
        (" --> ".data) ++
        srtTemplate (h2 : Int) (m2 : Int) (s2 : Int) (ms2 : Int) ++ rest)
      = some ((h1, m1, s1, ms1), (h2, m2, s2, ms2)) := by
  rw [srtTimeMatch]
  rw [show srtTemplate (h1 : Int) (m1 : Int) (s1 : Int) (ms1 : Int) ++
      (" --> ".data) ++
      srtTemplate (h2 : Int) (m2 : Int) (s2 : Int) (ms2 : Int) ++ rest =
      srtTemplate (h1 : Int) (m1 : Int) (s1 : Int) (ms1 : Int) ++
      ((" --> ".data) ++
        (srtTemplate (h2 : Int) (m2 : Int) (s2 : Int) (ms2 : Int) ++ rest)) by
    simp [List.append_assoc]]
  rw [srtStampParse_template hh1 hm1 hs1 hms1]
  simp only [Option.bind_eq_bind, Option.some_bind]
  rw [expectLit_append]
  simp only [Option.some_bind]
  rw [srtStampParse_template hh2 hm2 hs2 hms2]
  simp

theorem addTimeTuple_eq_decompose (h m s ms o : Int) :
    addTimeTuple h m s ms o =
      decomposeTotal (ms + (h * 3600000 + m * 60000 + s * 1000 + o)) := rfl

theorem decomposeTotal_ediv (T : Int) :
    decomposeTotal T = (T / 3600000, T % 3600000 / 60000,
      T % 3600000 % 60000 / 1000, T % 3600000 % 60000 % 1000) := by
  have e1 : ∀ a : Int, a.fdiv 3600000 = a / 3600000 :=
    fun a => Int.fdiv_eq_ediv a (by decide)
  have e2 : ∀ a : Int, a.fdiv 60000 = a / 60000 :=
    fun a => Int.fdiv_eq_ediv a (by decide)
  have e3 : ∀ a : Int, a.fdiv 1000 = a / 1000 :=
    fun a => Int.fdiv_eq_ediv a (by decide)
  have f1 : ∀ a : Int, a.fmod 3600000 = a % 3600000 :=
    fun a => Int.fmod_eq_emod a (by decide)
  have f2 : ∀ a : Int, a.fmod 60000 = a % 60000 :=
    fun a => Int.fmod_eq_emod a (by decide)
  have f3 : ∀ a : Int, a.fmod 1000 = a % 1000 :=
    fun a => Int.fmod_eq_emod a (by decide)
  rw [decomposeTotal, e1, f1, e2, f2, e3, f3]

theorem decomposeTotal_exact (T : Int) :
    (decomposeTotal T).1 * 3600000 + (decomposeTotal T).2.1 * 60000 +
      (decomposeTotal T).2.2.1 * 1000 + (decomposeTotal T).2.2.2 = T := by
  rw [decomposeTotal_ediv]
  simp only
  omega

theorem decomposeTotal_bounds (T : Int) :
    0 ≤ (decomposeTotal T).2.1 ∧ (decomposeTotal T).2.1 < 60 ∧
    0 ≤ (decomposeTotal T).2.2.1 ∧ (decomposeTotal T).2.2.1 < 60 ∧
    0 ≤ (decomposeTotal T).2.2.2 ∧ (decomposeTotal T).2.2.2 < 1000 := by
  rw [decomposeTotal_ediv]
  simp only
  omega

theorem addTimeTuple_id {h m s ms : Int} (hm : 0 ≤ m)
    (hm60 : m < 60) (hs : 0 ≤ s) (hs60 : s < 60) (hms : 0 ≤ ms)
    (hms1000 : ms < 1000) : addTimeTuple h m s ms 0 = (h, m, s, ms) := by
  rw [addTimeTuple_eq_decompose, decomposeTotal_ediv]
  simp only [Prod.mk.injEq]
  refine ⟨?_, ?_, ?_, ?_⟩ <;> omega

theorem shiftTuple_exact (t : Int × Int × Int × Int) (o : Int) :
    (shiftTuple t o).1 * 3600000 + (shiftTuple t o).2.1 * 60000 +
      (shiftTuple t o).2.2.1 * 1000 + (shiftTuple t o).2.2.2 =
      t.1 * 3600000 + t.2.1 * 60000 + t.2.2.1 * 1000 + t.2.2.2 + o := by
  rw [shiftTuple, addTimeTuple_eq_decompose]
  have := decomposeTotal_exact
    (t.2.2.2 + (t.1 * 3600000 + t.2.1 * 60000 + t.2.2.1 * 1000 + o))
  omega

theorem shiftTuple_add (t : Int × Int × Int × Int) (a b : Int) :
    shiftTuple (shiftTuple t a) b = shiftTuple t (a + b) := by
  have h1 := shiftTuple_exact t a
  rw [show shiftTuple (shiftTuple t a) b =
    decomposeTotal ((shiftTuple t a).2.2.2 + ((shiftTuple t a).1 * 3600000 +
      (shiftTuple t a).2.1 * 60000 + (shiftTuple t a).2.2.1 * 1000 + b)) from rfl]
  rw [show shiftTuple t (a + b) =
    decomposeTotal (t.2.2.2 + (t.1 * 3600000 + t.2.1 * 60000 +
      t.2.2.1 * 1000 + (a + b))) from rfl]
  congr 1
  omega

theorem digit_not_space {c : Char} (h : c.isDigit = true) :
    c.isWhitespace = false := by
  rcases Bool.eq_false_or_eq_true c.isWhitespace with hw | hw
  · exfalso
    simp [Char.isWhitespace] at hw
    rcases hw with ((rfl | rfl) | rfl) | rfl <;> exact absurd h (by decide)
  · exact hw

theorem mem_dropWhile_of_not {p : Char → Bool} {c : Char} :
    ∀ {l : Line}, c ∈ l → p c = false → c ∈ l.dropWhile p := by
  intro l
  induction l with
  | nil => intro h _; exact absurd h (List.not_mem_nil c)
  | cons x t ih =>
    intro hm hp
    rw [List.dropWhile_cons]
    by_cases hx : p x = true
    · rw [if_pos hx]
      rcases List.mem_cons.mp hm with rfl | hmt
      · exact absurd hx (by rw [hp]; decide)
      · exact ih hmt hp
    · rw [if_neg hx]
      exact hm

theorem mem_strip {c : Char} {l : Line} (hm : c ∈ l)
    (hs : c.isWhitespace = false) : c ∈ strip l := by
  rw [strip, List.mem_reverse]
  exact mem_dropWhile_of_not
    (by rw [List.mem_reverse]; exact mem_dropWhile_of_not hm hs) hs

theorem isSectionLine_eq_false_of_mem {c : Char} {l : Line} (hm : c ∈ l)
    (hs : c.isWhitespace = false) (hd : pyIsDigit c = false) :
    isSectionLine l = false := by
  rcases Bool.eq_false_or_eq_true (isSectionLine l) with h | h
  · exfalso
    rw [isSectionLine, Bool.and_eq_true, List.all_eq_true] at h
    have := h.2 c (mem_strip hm hs)
    rw [hd] at this
    exact Bool.false_ne_true this
  · exact h

theorem colon_mem_srtTemplate (h m s ms : Int) : ':' ∈ srtTemplate h m s ms := by
  rw [srtTemplate]
  exact List.mem_append.mpr (Or.inr (List.mem_cons_self _ _))

theorem colon_mem_add_time (h m s ms o : Int) : ':' ∈ add_time h m s ms o := by
  rw [add_time]
  rcases hdec : addTimeTuple h m s ms o with ⟨a, b, c, d⟩
  exact colon_mem_srtTemplate a b c d

theorem isSectionLine_timeline (h m s ms o : Int) (rest : Line) :
    isSectionLine (add_time h m s ms o ++ rest) = false := by
  have hc : ':' ∈ add_time h m s ms o ++ rest :=
    List.mem_append.mpr (Or.inl (colon_mem_add_time h m s ms o))
  exact isSectionLine_eq_false_of_mem hc (by decide) (by decide)

theorem isSectionLine_timeout (h m s ms o : Int) (x y z : Line) :
    isSectionLine (add_time h m s ms o ++ x ++ y ++ z) = false := by
  have hc : ':' ∈ add_time h m s ms o ++ x ++ y ++ z :=
    List.mem_append.mpr (Or.inl (List.mem_append.mpr (Or.inl
      (List.mem_append.mpr (Or.inl (colon_mem_add_time h m s ms o))))))
  exact isSectionLine_eq_false_of_mem hc (by decide) (by decide)

theorem parseFixed_suffix :
    ∀ (k : Nat) (a : Nat) (l : Line) (v : Nat) (rest : Line),
      parseFixed k a l = some (v, rest) → ∀ c ∈ rest, c ∈ l := by
  intro k
  induction k with
  | zero =>
    intro a l v rest h c hc
    rw [parseFixed] at h
    cases h
    exact hc
  | succ k ih =>
    intro a l v rest h c hc
    cases l with
    | nil => exact absurd h (by rw [parseFixed]; simp)
    | cons x t =>
      rw [parseFixed] at h
      by_cases hx : x.isDigit = true
      · rw [if_pos hx] at h
        exact List.mem_cons_of_mem x (ih _ t v rest h c hc)
      · rw [if_neg hx] at h
        cases h

theorem expectChar_mem {c : Char} {l r : Line} (h : expectChar c l = some r) :
    c ∈ l := by
  cases l with
  | nil => exact absurd h (by rw [expectChar]; simp)
  | cons x t =>
    rw [expectChar] at h
    by_cases hx : x = c
    · subst hx; exact List.mem_cons_self x t
    · rw [if_neg hx] at h; cases h

theorem srtStampParse_colon {l : Line} {x : (Nat × Nat × Nat × Nat) × Line}
    (h : srtStampParse l = some x) : ':' ∈ l := by
  rw [srtStampParse] at h
  rcases h1 : parseFixed 2 0 l with _ | ⟨v1, l1⟩
  · rw [h1] at h; exact absurd h (by simp)
  · rw [h1] at h
    simp only [Option.bind_eq_bind, Option.some_bind] at h
    rcases h2 : expectChar ':' l1 with _ | l2
    · rw [h2] at h; exact absurd h (by simp)
    · exact parseFixed_suffix 2 0 l v1 l1 h1 ':' (expectChar_mem h2)

theorem srtTimeMatch_not_section {l : Line}
    {x : (Nat × Nat × Nat × Nat) × (Nat × Nat × Nat × Nat)}
    (h : srtTimeMatch l = some x) : isSectionLine l = false := by
  rw [srtTimeMatch] at h
  rcases h1 : srtStampParse l with _ | ⟨t1, l1⟩
  · rw [h1] at h; exact absurd h (by simp)
  · exact isSectionLine_eq_false_of_mem (srtStampParse_colon h1)
      (by decide) (by decide)

theorem srtTimeMatch_of_section {l : Line} (h : isSectionLine l = true) :
    srtTimeMatch l = none := by
  rcases hm : srtTimeMatch l with _ | x
  · rfl
  · rw [srtTimeMatch_not_section hm] at h
    exact absurd h (by decide)

theorem strip_digits_crlf {ds : Line} (hne : ds ≠ [])
    (hd : ∀ c ∈ ds, c.isDigit = true) : strip (ds ++ crlf) = ds := by
  obtain ⟨c, t, rfl⟩ : ∃ c t, ds = c :: t := by
    cases ds with
    | nil => exact absurd rfl hne
    | cons c t => exact ⟨c, t, rfl⟩
  have hws := digit_not_space (hd c (List.mem_cons_self c t))
  rw [strip, List.cons_append, List.dropWhile_cons, hws]
  simp only [Bool.false_eq_true, if_false]
  rw [show (c :: (t ++ crlf)) = (c :: t) ++ crlf from rfl]
  rw [List.reverse_append]
  have hdw : ∀ x : Line, List.dropWhile Char.isWhitespace (crlf.reverse ++ x) =
      List.dropWhile Char.isWhitespace x := by
    intro x
    rw [show crlf.reverse ++ x = '\n' :: '\r' :: x from by
      simp [crlf, List.cons_append]]
    rw [List.dropWhile_cons, List.dropWhile_cons,
      if_pos (show ('\n').isWhitespace = true by decide),
      if_pos (show ('\r').isWhitespace = true by decide)]
  rw [hdw]
  rcases hrev : (c :: t).reverse with _ | ⟨d, r⟩
  · exact absurd hrev (by simp)
  · have hdm : d ∈ (c :: t) := by
      rw [← List.mem_reverse, hrev]
      exact List.mem_cons_self d r
    rw [List.dropWhile_cons, digit_not_space (hd d hdm)]
    simp only [Bool.false_eq_true, if_false]
    rw [← hrev, List.reverse_reverse]

theorem isSectionLine_render (n : Nat) :
    isSectionLine (natRender n ++ crlf) = true := by
  rw [isSectionLine, strip_digits_crlf (natRender_ne_nil n) (natRender_digits n)]
  rw [Bool.and_eq_true, List.all_eq_true]
  constructor
  · rcases hr : natRender n with _ | ⟨c, t⟩
    · exact absurd hr (natRender_ne_nil n)
    · rfl
  · intro c hc
    rw [pyIsDigit, natRender_digits n c hc]
    rfl

theorem pyInt_render (n : Nat) : pyInt (natRender n ++ crlf) = some (n : Int) := by
  rw [pyInt, strip_digits_crlf (natRender_ne_nil n) (natRender_digits n)]
  have h1 : (natRender n).isEmpty = false := by
    rcases hr : natRender n with _ | ⟨c, t⟩
    · exact absurd hr (natRender_ne_nil n)
    · rfl
  have h2 : (natRender n).all Char.isDigit = true :=
    List.all_eq_true.mpr (natRender_digits n)
  rw [h1, h2]
  simp only [Bool.not_false, Bool.true_and, if_true]
  rw [parseNat_natRender]

theorem sectionEmit_none (c : Int) : sectionEmit none c = c := rfl

theorem sectionEmit_zero (c : Int) : sectionEmit (some 0) c = c := by
  rw [sectionEmit]
  simp

theorem sectionEmit_succ (p : Int) : sectionEmit (some p) (p + 1) = p + 1 := by
  rw [sectionEmit]
  simp

theorem sectionEmit_repair {p c : Int} (hp : p ≠ 0) (hc : c ≠ p + 1) :
    sectionEmit (some p) c = p + 1 := by
  rw [sectionEmit]
  simp [hp, hc]

theorem sectionNums_nil : sectionNums [] = [] := rfl

theorem sectionNums_cons_of_not {l : Line} (h : isSectionLine l = false)
    (ls : List Line) : sectionNums (l :: ls) = sectionNums ls := by
  rw [sectionNums, sectionNums, List.filterMap_cons_none]
  rw [h]
  simp

theorem sectionNums_cons_some {l : Line} {n : Int} (h : isSectionLine l = true)
    (hn : pyInt l = some n) (ls : List Line) :
    sectionNums (l :: ls) = n :: sectionNums ls := by
  rw [sectionNums, sectionNums, List.filterMap_cons_some]
  rw [h, hn]
  simp

theorem srtStep_time {so toff : Int} {prev : Option Int} {line : Line}
    {h1 m1 s1 ms1 h2 m2 s2 ms2 : Nat}
    (hm : srtTimeMatch line = some ((h1, m1, s1, ms1), (h2, m2, s2, ms2))) :
    srtStep so toff prev line = some (prev,
      add_time h1 m1 s1 ms1 toff ++ (" --> ".data) ++
        add_time h2 m2 s2 ms2 toff ++ crlf) := by
  rw [srtStep, hm]

theorem srtStep_section {so toff : Int} {prev : Option Int} {line : Line}
    {n : Int} (hsec : isSectionLine line = true) (hint : pyInt line = some n) :
    srtStep so toff prev line = some (some (sectionEmit prev (n + so)),
      intRender (sectionEmit prev (n + so)) ++ crlf) := by
  rw [srtStep, srtTimeMatch_of_section hsec, hsec, hint]
  simp

theorem srtStep_other {so toff : Int} {prev : Option Int} {line : Line}
    (hm : srtTimeMatch line = none) (hsec : isSectionLine line = false) :
    srtStep so toff prev line = some (prev, line) := by
  rw [srtStep, hm, hsec]
  simp

theorem add_time_id {h m s ms : Int} (hm : 0 ≤ m) (hm60 : m < 60) (hs : 0 ≤ s)
    (hs60 : s < 60) (hms : 0 ≤ ms) (hms1000 : ms < 1000) :
    add_time h m s ms 0 = srtTemplate h m s ms := by
  rw [add_time, addTimeTuple_id hm hm60 hs hs60 hms hms1000]

theorem wfTimeLine_not_section {l : Line} (hwf : WfTimeLine l) :
    isSectionLine l = false := by
  obtain ⟨h1, m1, s1, ms1, h2, m2, s2, ms2, _, _, _, _, _, _, _, _, rfl⟩ := hwf
  have hc : ':' ∈ srtTemplate (h1 : Int) m1 s1 ms1 ++ (" --> ".data) ++
      srtTemplate (h2 : Int) m2 s2 ms2 ++ crlf :=
    List.mem_append.mpr (Or.inl (List.mem_append.mpr (Or.inl
      (List.mem_append.mpr (Or.inl (colon_mem_srtTemplate _ _ _ _))))))
  exact isSectionLine_eq_false_of_mem hc (by decide) (by decide)

theorem processSrtFrom_cons {so toff : Int} {prev p' : Option Int}
    {l l' : Line} (h : srtStep so toff prev l = some (p', l'))
    (ls : List Line) :
    processSrtFrom so toff prev (l :: ls) =
      match processSrtFrom so toff p' ls with
      | none => none
      | some out => some (l' :: out) := by
  rw [processSrtFrom, h]

theorem processSrtFrom_wf :
    ∀ (cs : List Line) (prev : Option Int), (∀ l ∈ cs, WfSrtLine l) →
      List.Chain' (fun a b => b = a + 1) (sectionNums cs) →
      prevOk prev (sectionNums cs) →
      processSrtFrom 0 0 prev cs = some cs := by
  intro cs
  induction cs with
  | nil => intro prev _ _ _; rfl
  | cons l ls ih =>
    intro prev hwf hch hpo
    have hwfl := hwf l (List.mem_cons_self l ls)
    have hwfls : ∀ x ∈ ls, WfSrtLine x :=
      fun x hx => hwf x (List.mem_cons_of_mem l hx)
    rcases hwfl with htime | hsec | hun
    · obtain ⟨h1, m1, s1, ms1, h2, m2, s2, ms2, hh1, hm1, hs1, hms1, hh2, hm2,
        hs2, hms2, rfl⟩ := htime
      have hmatch := @srtTimeMatch_template h1 m1 s1 ms1 h2 m2 s2 ms2
        (by omega) (by omega) (by omega) (by omega) (by omega) (by omega)
        (by omega) (by omega) crlf
      have hnotsec : isSectionLine (srtTemplate (h1 : Int) m1 s1 ms1 ++
          (" --> ".data) ++ srtTemplate (h2 : Int) m2 s2 ms2 ++ crlf) = false :=
        wfTimeLine_not_section ⟨h1, m1, s1, ms1, h2, m2, s2, ms2, hh1, hm1,
          hs1, hms1, hh2, hm2, hs2, hms2, rfl⟩
      have e1 : add_time (h1 : Int) m1 s1 ms1 0 = srtTemplate (h1 : Int) m1 s1 ms1 :=
        add_time_id (by positivity) (by exact_mod_cast hm1) (by positivity)
          (by exact_mod_cast hs1) (by positivity) (by exact_mod_cast (by omega : ms1 < 1000))
      have e2 : add_time (h2 : Int) m2 s2 ms2 0 = srtTemplate (h2 : Int) m2 s2 ms2 :=
        add_time_id (by positivity) (by exact_mod_cast hm2) (by positivity)
          (by exact_mod_cast hs2) (by positivity) (by exact_mod_cast (by omega : ms2 < 1000))
      rw [sectionNums_cons_of_not hnotsec] at hch hpo
      rw [processSrtFrom_cons (srtStep_time hmatch) ls, ih prev hwfls hch hpo,
        e1, e2]
    · obtain ⟨n, rfl⟩ := hsec
      have hnsec := isSectionLine_render n
      have hnint := pyInt_render n
      rw [sectionNums_cons_some hnsec hnint] at hch hpo
      have hemit : sectionEmit prev ((n : Int) + 0) = (n : Int) := by
        rw [Int.add_zero]
        match prev, hpo with
        | none, _ => exact sectionEmit_none _
        | some p, hpo =>
          rcases hpo with rfl | hpn
          · exact sectionEmit_zero _
          · rw [← hpn]; exact sectionEmit_succ p
      have hpo' : prevOk (some (n : Int)) (sectionNums ls) := by
        rcases hsn : sectionNums ls with _ | ⟨n', rest⟩
        · exact trivial
        · rw [hsn] at hch
          have := (List.chain'_cons.mp hch).1
          exact Or.inr this.symm
      have hstep := @srtStep_section 0 0 prev _ _ hnsec hnint
      rw [hemit, intRender_natCast] at hstep
      rw [processSrtFrom_cons hstep ls, ih (some (n : Int)) hwfls hch.tail hpo']
    · obtain ⟨hnone, hfalse, _⟩ := hun
      rw [sectionNums_cons_of_not hfalse] at hch hpo
      rw [processSrtFrom_cons (srtStep_other hnone hfalse) ls,
        ih prev hwfls hch hpo]

theorem srtStep_crash {so toff : Int} {prev : Option Int} {line : Line}
    (hm : srtTimeMatch line = none) (hsec : isSectionLine line = true)
    (hint : pyInt line = none) : srtStep so toff prev line = none := by
  rw [srtStep, hm, hsec, hint]
  simp

theorem pyInt_exists_nat {l : Line} {n : Int} (h : pyInt l = some n) :
    ∃ k : Nat, n = (k : Int) := by
  rw [pyInt] at h
  by_cases hc : (!(strip l).isEmpty && (strip l).all Char.isDigit) = true
  · rw [if_pos hc] at h
    exact ⟨parseNat (strip l), (Option.some_inj.mp h).symm⟩
  · rw [if_neg hc] at h
    cases h

theorem processSrtFrom_sections :
    ∀ (cs : List Line) (prev : Option Int) (out : List Line) (toff : Int),
      processSrtFrom 0 toff prev cs = some out →
      List.Chain' (fun a b => b = a + 1) (sectionNums cs) →
      prevOk prev (sectionNums cs) →
      sectionNums out = sectionNums cs := by
  intro cs
  induction cs with
  | nil =>
    intro prev out toff hrun _ _
    rw [processSrtFrom] at hrun
    obtain rfl := Option.some_inj.mp hrun
    rfl
  | cons l ls ih =>
    intro prev out toff hrun hch hpo
    rcases hm : srtTimeMatch l with _ | x
    · by_cases hsec : isSectionLine l = true
      · rcases hint : pyInt l with _ | n
        · rw [processSrtFrom, srtStep_crash hm hsec hint] at hrun
          cases hrun
        · obtain ⟨k, rfl⟩ := pyInt_exists_nat hint
          rw [sectionNums_cons_some hsec hint] at hch hpo
          have hemit : sectionEmit prev ((k : Int) + 0) = (k : Int) := by
            rw [Int.add_zero]
            match prev, hpo with
            | none, _ => exact sectionEmit_none _
            | some p, hpo =>
              rcases hpo with rfl | hpn
              · exact sectionEmit_zero _
              · rw [← hpn]; exact sectionEmit_succ p
          have hstep := @srtStep_section 0 toff prev _ _ hsec hint
          rw [hemit, intRender_natCast] at hstep
          rw [processSrtFrom_cons hstep ls] at hrun
          rcases hrec : processSrtFrom 0 toff (some (k : Int)) ls with _ | out'
          · rw [hrec] at hrun; cases hrun
          · rw [hrec] at hrun
            obtain rfl := Option.some_inj.mp hrun
            have hpo' : prevOk (some (k : Int)) (sectionNums ls) := by
              rcases hsn : sectionNums ls with _ | ⟨n', rest⟩
              · exact trivial
              · rw [hsn] at hch
                exact Or.inr (List.chain'_cons.mp hch).1.symm
            rw [sectionNums_cons_some (isSectionLine_render k) (pyInt_render k)]
            rw [ih (some (k : Int)) out' toff hrec hch.tail hpo']
            rw [sectionNums_cons_some hsec hint]
      · have hsecf : isSectionLine l = false := by
          rcases Bool.eq_false_or_eq_true (isSectionLine l) with h | h
          · exact absurd h hsec
          · exact h
        rw [sectionNums_cons_of_not hsecf] at hch hpo
        rw [processSrtFrom_cons (srtStep_other hm hsecf) ls] at hrun
        rcases hrec : processSrtFrom 0 toff prev ls with _ | out'
        · rw [hrec] at hrun; cases hrun
        · rw [hrec] at hrun
          obtain rfl := Option.some_inj.mp hrun
          rw [sectionNums_cons_of_not hsecf]
          rw [ih prev out' toff hrec hch hpo]
          rw [sectionNums_cons_of_not hsecf]
    · obtain ⟨⟨a1, b1, c1, d1⟩, ⟨a2, b2, c2, d2⟩⟩ := x
      have hsecf : isSectionLine l = false := srtTimeMatch_not_section hm
      rw [sectionNums_cons_of_not hsecf] at hch hpo
      rw [processSrtFrom_cons (srtStep_time hm) ls] at hrun
      rcases hrec : processSrtFrom 0 toff prev ls with _ | out'
      · rw [hrec] at hrun; cases hrun
      · rw [hrec] at hrun
        obtain rfl := Option.some_inj.mp hrun
        rw [sectionNums_cons_of_not (isSectionLine_timeout
          (a1 : Int) (b1 : Int) (c1 : Int) (d1 : Int) toff
          (" --> ".data) (add_time (a2 : Int) b2 c2 d2 toff) crlf)]
        rw [ih prev out' toff hrec hch hpo]
        rw [sectionNums_cons_of_not hsecf]

theorem takeWhile_append_stop {p : Char → Bool} {x : Char} (hx : p x = false) :
    ∀ {ds : Line}, (∀ c ∈ ds, p c = true) → ∀ rest : Line,
      (ds ++ x :: rest).takeWhile p = ds := by
  intro ds
  induction ds with
  | nil =>
    intro _ rest
    rw [List.nil_append, List.takeWhile_cons, hx]
    simp
  | cons c t ih =>
    intro hd rest
    rw [List.cons_append, List.takeWhile_cons, hd c (List.mem_cons_self c t)]
    rw [ih (fun y hy => hd y (List.mem_cons_of_mem c hy)) rest]
    simp

theorem dropWhile_append_stop {p : Char → Bool} {x : Char} (hx : p x = false) :
    ∀ {ds : Line}, (∀ c ∈ ds, p c = true) → ∀ rest : Line,
      (ds ++ x :: rest).dropWhile p = x :: rest := by
  intro ds
  induction ds with
  | nil =>
    intro _ rest
    rw [List.nil_append, List.dropWhile_cons, hx]
    simp
  | cons c t ih =>
    intro hd rest
    rw [List.cons_append, List.dropWhile_cons, hd c (List.mem_cons_self c t)]
    rw [ih (fun y hy => hd y (List.mem_cons_of_mem c hy)) rest]
    simp

theorem smiMatch_template {ds rest : Line} (hne : ds ≠ [])
    (hds : ∀ c ∈ ds, c.isDigit = true) :
    smiMatch (("<SYNC Start=".data) ++ ds ++ '>' :: rest) =
      some (parseNat ds) := by
  have hassoc : ("<SYNC Start=".data) ++ ds ++ '>' :: rest =
      ("<SYNC Start=".data) ++ (ds ++ '>' :: rest) := by
    rw [List.append_assoc]
  rw [smiMatch, hassoc, expectLit_append]
  have h1 : (ds ++ '>' :: rest).takeWhile Char.isDigit = ds :=
    takeWhile_append_stop (by decide) hds rest
  have h2 : (ds ++ '>' :: rest).dropWhile Char.isDigit = '>' :: rest :=
    dropWhile_append_stop (by decide) hds rest
  have hemp : ds.isEmpty = false := by
    cases ds with
    | nil => exact absurd rfl hne
    | cons c t => rfl
  simp only [h1, h2, hemp]
  simp

/-- C1 (counterexample): with `sectionOffset = 0`, after the line `"0"` the
state `previousSection` is `0`; on the following line `"5"` the candidate `5`
differs from `0 + 1`, yet the emitted number is `5`, not `1` — Python's
truthiness test disables the repair rule when the previous section is `0`,
contradicting the claim's "for every value of previousSection, including 0". -/
theorem C1_counterexample :
    process_srt (("0".data) :: ("5".data) :: []) 0 0 =
      some (("0\r\n".data) :: ("5\r\n".data) :: []) ∧
    process_srt (("0".data) :: ("5".data) :: []) 0 0 ≠
      some (("0\r\n".data) :: ("1\r\n".data) :: []) := by decide

/-- C1 (amended): whenever a section-number line is matched, a previous
section number has already been emitted in this invocation, and that
previous number is nonzero, a candidate `n + sectionOffset` different from
`previousSection + 1` makes the code emit `previousSection + 1` and update
the state to the emitted value. -/
theorem C1_repair_rule (so toff p n : Int) (line : Line) (hp : p ≠ 0)
    (hsec : isSectionLine line = true) (hint : pyInt line = some n)
    (hne : n + so ≠ p + 1) :
    srtStep so toff (some p) line =
      some (some (p + 1), intRender (p + 1) ++ crlf) := by
  rw [srtStep_section hsec hint, sectionEmit_repair hp hne]

/-- Witness for C1: previous section 2, source line `"5"`, offset 0: the
candidate 5 is repaired to 3 and the state becomes 3. -/
theorem C1_repair_rule_witness :
    srtStep 0 0 (some 2) ("5".data) =
      some (some (2 + 1), intRender (2 + 1) ++ crlf) :=
  C1_repair_rule 0 0 2 5 ("5".data) (by decide) (by decide) (by decide)
    (by decide)

/-- C2 (counterexample): the section lines `5, 7` are strictly increasing and
`sectionOffset = 0`, but the output numbers are `5, 6`, not the input
numbers `5, 7`: strict increase does not protect a gap from the repair rule. -/
theorem C2_counterexample :
    sectionNums (("5".data) :: ("7".data) :: []) = (5 : Int) :: 7 :: [] ∧
    process_srt (("5".data) :: ("7".data) :: []) 0 0 =
      some (("5\r\n".data) :: ("6\r\n".data) :: []) ∧
    sectionNums (("5\r\n".data) :: ("6\r\n".data) :: []) =
      (5 : Int) :: 6 :: [] := by decide

/-- C2 (amended): for every SRT input whose section-number lines appear in
consecutive order (each exactly one more than the previous), a run of the
SRT rewriter with `sectionOffset = 0` emits the input section numbers
unchanged, for any time offset. -/
theorem C2_section_monotonic (cs out : List Line) (toff : Int)
    (hrun : process_srt cs 0 toff = some out)
    (hconsec : List.Chain' (fun a b => b = a + 1) (sectionNums cs)) :
    sectionNums out = sectionNums cs :=
  processSrtFrom_sections cs none out toff hrun hconsec trivial

/-- Witness for C2: the consecutive sections `1, 2` are emitted unchanged. -/
theorem C2_section_monotonic_witness :
    sectionNums (("1\r\n".data) :: ("2\r\n".data) :: []) =
      sectionNums (("1".data) :: ("2".data) :: []) := by
  refine C2_section_monotonic (("1".data) :: ("2".data) :: [])
    (("1\r\n".data) :: ("2\r\n".data) :: []) 0 (by decide) ?_
  rw [show sectionNums (("1".data) :: ("2".data) :: []) = (1 : Int) :: 2 :: []
    from by decide]
  exact List.chain'_cons.mpr ⟨by norm_num, List.chain'_singleton _⟩

/-- C3 (counterexample): at `h = 100` the template renders three hour digits,
`"100:00:00,000"`, and the anchored `SRT_PATTERN` parse fails instead of
returning the tuple, so the round-trip claim fails for unbounded hours. -/
theorem C3_counterexample :
    srtTemplate 100 0 0 0 = "100:00:00,000".data ∧
    srtStampParse (srtTemplate 100 0 0 0) = none := by decide

/-- C3 (amended): for every tuple of non-negative integers `(h, m, s, ms)`
with `h ≤ 99`, `m < 60`, `s < 60` and `ms < 1000`, formatting with the
fixed-width template and re-parsing with the SRT timestamp pattern yields
the same tuple (consuming the whole text). -/
theorem C3_roundtrip (h m s ms : Nat) (hh : h ≤ 99) (hm : m < 60)
    (hs : s < 60) (hms : ms < 1000) :
    srtStampParse (srtTemplate (h : Int) (m : Int) (s : Int) (ms : Int)) =
      some ((h, m, s, ms), []) := by
  have hx := @srtStampParse_template h m s ms hh (by omega) (by omega)
    (by omega) []
  rw [List.append_nil] at hx
  exact hx

/-- Witness for C3: the tuple `(1, 2, 3, 4)` formats to `"01:02:03,004"` and
parses back to itself. -/
theorem C3_roundtrip_witness :
    srtStampParse (srtTemplate (1 : Int) (2 : Int) (3 : Int) (4 : Int)) =
      some ((1, 2, 3, 4), []) :=
  C3_roundtrip 1 2 3 4 (by decide) (by decide) (by decide) (by decide)

/-- C4 (confirmed): on a sequence of well-formed SRT lines — canonical
time-range lines, canonically rendered section-number lines in consecutive
order, and unrecognized lines, each terminated by CR+LF — the SRT rewriter
with both offsets 0 returns the input unchanged (and raises nothing). -/
theorem C4_zero_idempotent (cs : List Line) (hwf : ∀ l ∈ cs, WfSrtLine l)
    (hconsec : List.Chain' (fun a b => b = a + 1) (sectionNums cs)) :
    process_srt cs 0 0 = some cs :=
  processSrtFrom_wf cs none hwf hconsec trivial

/-- Witness for C4: a section line, a time-range line, a plain text line and
a second section line all pass through the zero-offset rewriter unchanged. -/
theorem C4_zero_idempotent_witness :
    process_srt (("1\r\n".data) ::
      ("00:00:01,000 --> 00:00:02,500\r\n".data) ::
      ("Hello world\r\n".data) :: ("2\r\n".data) :: []) 0 0 =
    some (("1\r\n".data) ::
      ("00:00:01,000 --> 00:00:02,500\r\n".data) ::
      ("Hello world\r\n".data) :: ("2\r\n".data) :: []) := by
  refine C4_zero_idempotent _ ?_ ?_
  · intro l hl
    simp only [List.mem_cons, List.not_mem_nil, or_false] at hl
    rcases hl with rfl | rfl | rfl | rfl
    · exact Or.inr (Or.inl ⟨1, by decide⟩)
    · refine Or.inl ⟨0, 0, 1, 0, 0, 0, 2, 500, by decide, by decide, by decide,
        by decide, by decide, by decide, by decide, by decide, by decide⟩
    · exact Or.inr (Or.inr ⟨by decide, by decide, ("Hello world".data), by decide⟩)
    · exact Or.inr (Or.inl ⟨2, by decide⟩)
  · rw [show sectionNums (("1\r\n".data) ::
      ("00:00:01,000 --> 00:00:02,500\r\n".data) ::
      ("Hello world\r\n".data) :: ("2\r\n".data) :: []) = (1 : Int) :: 2 :: []
      from by decide]
    exact List.chain'_cons.mpr ⟨by norm_num, List.chain'_singleton _⟩

/-- C5 (confirmed): shifting a timestamp by `a` and then by `b` equals
shifting it by `a + b` in one step, under the claim's hypotheses of
non-negative fields and non-negative intermediate flattened totals (the
underlying tuple identity holds unconditionally). -/
theorem C5_shift_additive (h m s ms a b : Int) (hh : 0 ≤ h) (hm : 0 ≤ m)
    (hs : 0 ≤ s) (hms : 0 ≤ ms)
    (hta : 0 ≤ ms + (h * 3600000 + m * 60000 + s * 1000 + a))
    (htab : 0 ≤ ms + (h * 3600000 + m * 60000 + s * 1000 + (a + b))) :
    shiftTuple (shiftTuple (h, m, s, ms) a) b =
      shiftTuple (h, m, s, ms) (a + b) :=
  shiftTuple_add (h, m, s, ms) a b

/-- Witness for C5: shifting `00:00:01,000` by `+500` then `-200` equals
shifting it by `+300`. -/
theorem C5_shift_additive_witness :
    shiftTuple (shiftTuple (0, 0, 1, 0) 500) (-200) =
      shiftTuple (0, 0, 1, 0) (500 + -200) :=
  C5_shift_additive 0 0 1 0 500 (-200) (by decide) (by decide) (by decide)
    (by decide) (by decide) (by decide)

/-- C6 (code bug): the claim says both rewriters never raise and pass
uninterpretable lines through verbatim, but on the single line `"²"`
(superscript two, U+00B2) `process_srt` raises `ValueError`: Python's
`str.isdigit` accepts the character, so the section branch is taken, and
then `int(line)` rejects it.  The model returns `none` (crash) instead of
passing the line through. -/
theorem C6_superscript_crash :
    process_srt (('²' :: []) :: []) 0 0 = none ∧
    process_srt (('²' :: []) :: []) 0 0 ≠ some (('²' :: []) :: []) := by decide

/-- C7 (confirmed): a line starting with `<SYNC Start=`, one or more decimal
digits and `>` is replaced by the canonical marker holding the number plus
the offset, terminated by CR+LF; in particular `"<SYNC Start=1000>"` with
offset 2000 becomes `"<SYNC Start=3000>\r\n"`. -/
theorem C7_smi_rewrite (ds rest : Line) (off : Int) (hne : ds ≠ [])
    (hds : ∀ c ∈ ds, c.isDigit = true) :
    smiLine off (("<SYNC Start=".data) ++ ds ++ '>' :: rest) =
      smiTemplate ((parseNat ds : Int) + off) ∧
    process_smi (("<SYNC Start=1000>".data) :: []) 2000 =
      ("<SYNC Start=3000>\r\n".data) :: [] := by
  constructor
  · rw [smiLine, smiMatch_template hne hds]
  · decide

/-- Witness for C7: the digits `1000` with offset 2000 rewrite to the
canonical marker for 3000. -/
theorem C7_smi_rewrite_witness :
    smiLine 2000 (("<SYNC Start=".data) ++ ("1000".data) ++ '>' :: []) =
      smiTemplate ((parseNat ("1000".data) : Int) + 2000) :=
  (C7_smi_rewrite ("1000".data) [] 2000 (by decide) (by decide)).1

/-- C8 (confirmed): the SMI rewriter is a 1:1 line mapping — one output line
per input line, in order — and every line not matching the SYNC-start
pattern appears in the output byte-for-byte identical, original terminator
included. -/
theorem C8_smi_line_mapping (cs : List Line) (off : Int) :
    (process_smi cs off).length = cs.length ∧
    ∀ (i : Nat) (l : Line), cs[i]? = some l → smiMatch l = none →
      (process_smi cs off)[i]? = some l := by
  constructor
  · rw [process_smi, List.length_map]
  · intro i l hget hnone
    rw [process_smi, List.getElem?_map, hget]
    show some (smiLine off l) = some l
    rw [smiLine, hnone]

/-- Witness for C8: a plain text line passes through `process_smi` unchanged
at its original position. -/
theorem C8_smi_line_mapping_witness :
    (process_smi (("Hello world".data) :: []) 7)[0]? =
      some ("Hello world".data) :=
  (C8_smi_line_mapping (("Hello world".data) :: []) 7).2 0
    ("Hello world".data) (by decide) (by decide)

/-- C9 (confirmed): the SRT rewriter with time offset `-500` ms maps the line
`"00:00:01,000 --> 00:00:02,500"` to `"00:00:00,500 --> 00:00:02,000\r\n"`. -/
theorem C9_scenario_minus500 :
    process_srt (("00:00:01,000 --> 00:00:02,500".data) :: []) 0 (-500) =
      some (("00:00:00,500 --> 00:00:02,000\r\n".data) :: []) := by decide

/-- C10 (confirmed): for non-negative fields and any offset, the decomposed
fields satisfy `0 ≤ minutes < 60`, `0 ≤ seconds < 60`, `0 ≤ millis < 1000`,
and flattening them recovers the input total exactly; only the hours field
can go negative. -/
theorem C10_field_bounds (h m s ms off : Int) (hh : 0 ≤ h) (hm : 0 ≤ m)
    (hs : 0 ≤ s) (hms : 0 ≤ ms) :
    0 ≤ (addTimeTuple h m s ms off).2.1 ∧
    (addTimeTuple h m s ms off).2.1 < 60 ∧
    0 ≤ (addTimeTuple h m s ms off).2.2.1 ∧
    (addTimeTuple h m s ms off).2.2.1 < 60 ∧
    0 ≤ (addTimeTuple h m s ms off).2.2.2 ∧
    (addTimeTuple h m s ms off).2.2.2 < 1000 ∧
    (addTimeTuple h m s ms off).1 * 3600000 +
      (addTimeTuple h m s ms off).2.1 * 60000 +
      (addTimeTuple h m s ms off).2.2.1 * 1000 +
      (addTimeTuple h m s ms off).2.2.2 =
      h * 3600000 + m * 60000 + s * 1000 + ms + off := by
  rw [addTimeTuple_eq_decompose]
  have hb := decomposeTotal_bounds (ms + (h * 3600000 + m * 60000 + s * 1000 + off))
  have he := decomposeTotal_exact (ms + (h * 3600000 + m * 60000 + s * 1000 + off))
  exact ⟨hb.1, hb.2.1, hb.2.2.1, hb.2.2.2.1, hb.2.2.2.2.1, hb.2.2.2.2.2, by omega⟩

/-- Witness for C10: the timestamp `01:02:03,004` shifted by `-5000000` ms
(driving the total negative) still has in-range minute, second and
millisecond fields and an exact flattened total. -/
theorem C10_field_bounds_witness :
    0 ≤ (addTimeTuple 1 2 3 4 (-5000000)).2.1 ∧
    (addTimeTuple 1 2 3 4 (-5000000)).2.1 < 60 ∧
    0 ≤ (addTimeTuple 1 2 3 4 (-5000000)).2.2.1 ∧
    (addTimeTuple 1 2 3 4 (-5000000)).2.2.1 < 60 ∧
    0 ≤ (addTimeTuple 1 2 3 4 (-5000000)).2.2.2 ∧
    (addTimeTuple 1 2 3 4 (-5000000)).2.2.2 < 1000 ∧
    (addTimeTuple 1 2 3 4 (-5000000)).1 * 3600000 +
      (addTimeTuple 1 2 3 4 (-5000000)).2.1 * 60000 +
      (addTimeTuple 1 2 3 4 (-5000000)).2.2.1 * 1000 +
      (addTimeTuple 1 2 3 4 (-5000000)).2.2.2 =
      1 * 3600000 + 2 * 60000 + 3 * 1000 + 4 + -5000000 :=
  C10_field_bounds 1 2 3 4 (-5000000) (by decide) (by decide) (by decide)
    (by decide)

end SubAdjust
